import Mathlib

/-!
Verification of the freight-broker matching and negotiation core
(`src/app/enhanced_services.py`).

The embedding translates `LoadMatchingService.search_loads`,
`NegotiationEngine.evaluate_offer`, `NegotiationEngine._get_strategy` and
`NegotiationEngine._calculate_counter_offer` into Lean.  Python floats are
modelled by the rationals, Python strings by lists of characters, and the
optional keyword arguments by `Option` values whose Python truthiness is made
explicit.  `round(x, 2)` is modelled by exact round-half-even at two decimals,
which agrees with the Python behaviour on every value used below.
-/

namespace FreightBroker

/-- Python strings are modelled as lists of characters. -/
abbrev Str := List Char

/-- Model of `str.lower` on one ASCII character. -/
def lowerChar (c : Char) : Char :=
  if 65 ≤ c.toNat ∧ c.toNat ≤ 90 then Char.ofNat (c.toNat + 32) else c

/-- Model of `str.upper` on one ASCII character. -/
def upperChar (c : Char) : Char :=
  if 97 ≤ c.toNat ∧ c.toNat ≤ 122 then Char.ofNat (c.toNat - 32) else c

/-- Model of `str.lower`. -/
def lowerStr (s : Str) : Str := s.map lowerChar

/-- Model of `str.upper`. -/
def upperStr (s : Str) : Str := s.map upperChar

/-- `leadsWith hay pat` holds when `pat` is an initial segment of `hay`. -/
def leadsWith : Str → Str → Bool
  | _, [] => true
  | [], _ :: _ => false
  | h :: hs, p :: ps => h == p && leadsWith hs ps

/-- Model of the Python substring test `pat in hay` (contiguous occurrence;
the empty pattern occurs in every string). -/
def containsSub : Str → Str → Bool
  | [], pat => pat.isEmpty
  | h :: t, pat => leadsWith (h :: t) pat || containsSub t pat

/-- Python truthiness of an optional string (`None` and `""` are falsy). -/
def truthyS : Option Str → Bool
  | none => false
  | some s => !s.isEmpty

/-- Python truthiness of an optional number (`None` and `0` are falsy). -/
def truthyQ : Option ℚ → Bool
  | none => false
  | some x => x != 0

/-- Model of Python `round(q, 2)`: round half to even at two decimal places.
This is the rounding Python applies; on every concrete value appearing in this
file the float representation issues of CPython do not change the result. -/
def round2 (q : ℚ) : ℚ :=
  let s := q * 100
  let f : ℤ := ⌊s⌋
  let n : ℤ :=
    if s - f < 1/2 then f
    else if 1/2 < s - f then f + 1
    else if f % 2 = 0 then f else f + 1
  (n : ℚ) / 100

/-- The fields of a load record read by `search_loads`
(`src/app/enhanced_services.py`, lines 172-220).  The Python code works on
dictionaries with `load.get(key, default)`; only the keys the matcher reads are
modelled and the defaults are folded into total fields. -/
structure Load where
  origin : Str
  destination : Str
  equipment_type : Str
  loadboard_rate : ℚ
  miles : ℚ
  deriving DecidableEq, Repr

/-- The keyword arguments of `search_loads` (lines 149-156). -/
structure Criteria where
  equipment_type : Option Str := none
  origin_state : Option Str := none
  destination_state : Option Str := none
  min_rate : Option ℚ := none
  max_miles : Option ℚ := none
  deriving DecidableEq, Repr

/-- The entries appended to the `reasons` list (lines 183, 192, 198, 204, 210),
with the interpolated value each f-string carries. -/
inductive Reason where
  | equipMatch (loadEquipment : Str)
  | originPref (loadOrigin : Str)
  | destPref (loadDestination : Str)
  | rateMin (loadRate : ℚ)
  | mileLimit (loadMiles : ℚ)
  deriving DecidableEq, Repr

/-- The enhanced load dictionary built at lines 213-219: the original load
plus the match fields added by the matcher. -/
structure MatchResult where
  load : Load
  match_score : ℕ
  match_reasons : List Reason
  estimated_revenue : ℚ
  revenue_per_mile : ℚ
  deriving DecidableEq, Repr

/-- Line 181: symmetric case-insensitive substring test between the load
equipment and the carrier equipment. -/
def equipOverlapB (c : Criteria) (l : Load) : Bool :=
  let le := lowerStr l.equipment_type
  let ce := lowerStr (c.equipment_type.getD [])
  containsSub le ce || containsSub ce le

/-- Line 190: `origin_state.upper() in load_origin` (note: the load side is
compared as stored, without case folding). -/
def originHit (c : Criteria) (l : Load) : Bool :=
  containsSub l.origin (upperStr (c.origin_state.getD []))

/-- Line 196: `destination_state.upper() in load_destination`. -/
def destHit (c : Criteria) (l : Load) : Bool :=
  containsSub l.destination (upperStr (c.destination_state.getD []))

/-- Line 202: `load_rate >= min_rate`. -/
def rateHit (c : Criteria) (l : Load) : Bool :=
  decide (c.min_rate.getD 0 ≤ l.loadboard_rate)

/-- Line 208: `load_miles <= max_miles`. -/
def milesHit (c : Criteria) (l : Load) : Bool :=
  decide (l.miles ≤ c.max_miles.getD 0)

/-- Points added at line 182 (equipment branch of the accumulation). -/
def equipPts (c : Criteria) (l : Load) : ℕ :=
  if truthyS c.equipment_type && equipOverlapB c l then 40 else 0

/-- Points added at line 191. -/
def originPts (c : Criteria) (l : Load) : ℕ :=
  if truthyS c.origin_state && originHit c l then 20 else 0

/-- Points added at line 197. -/
def destPts (c : Criteria) (l : Load) : ℕ :=
  if truthyS c.destination_state && destHit c l then 20 else 0

/-- Points added at line 203. -/
def ratePts (c : Criteria) (l : Load) : ℕ :=
  if truthyQ c.min_rate && rateHit c l then 15 else 0

/-- Points added at line 209. -/
def milesPts (c : Criteria) (l : Load) : ℕ :=
  if truthyQ c.max_miles && milesHit c l then 5 else 0

/-- The score contributed by the four non-equipment components. -/
def nonEquipScore (c : Criteria) (l : Load) : ℕ :=
  originPts c l + destPts c l + ratePts c l + milesPts c l

/-- The total `match_score` accumulated for a load that passes the equipment
gate: the sequential `match_score += k` statements of lines 173-210 sum the
five fixed bonuses. -/
def scoreVal (c : Criteria) (l : Load) : ℕ :=
  equipPts c l + nonEquipScore c l

/-- The `reasons` list accumulated for a load that passes the equipment gate,
in the order the Python code appends them. -/
def reasonsVal (c : Criteria) (l : Load) : List Reason :=
  (if truthyS c.equipment_type && equipOverlapB c l
    then [Reason.equipMatch (lowerStr l.equipment_type)] else [])
  ++ (if truthyS c.origin_state && originHit c l
    then [Reason.originPref l.origin] else [])
  ++ (if truthyS c.destination_state && destHit c l
    then [Reason.destPref l.destination] else [])
  ++ (if truthyQ c.min_rate && rateHit c l
    then [Reason.rateMin l.loadboard_rate] else [])
  ++ (if truthyQ c.max_miles && milesHit c l
    then [Reason.mileLimit l.miles] else [])

/-- The body of the `for load in self.loads` loop (lines 172-220): `none`
models `continue` at line 185 (equipment gate) and the score floor at line 212
(`match_score >= 40`); `some` carries the enhanced load built at lines
213-219. -/
def scoreLoad (c : Criteria) (l : Load) : Option MatchResult :=
  if truthyS c.equipment_type && !equipOverlapB c l then none
  else if 40 ≤ scoreVal c l then
    some { load := l
           match_score := scoreVal c l
           match_reasons := reasonsVal c l
           estimated_revenue := l.loadboard_rate
           revenue_per_mile :=
             if l.miles ≠ 0 then round2 (l.loadboard_rate / max l.miles 1) else 0 }
  else none

/-- One insertion step of a stable descending sort on `match_score`. -/
def insertDesc (x : MatchResult) : List MatchResult → List MatchResult
  | [] => [x]
  | y :: ys => if x.match_score < y.match_score then y :: insertDesc x ys else x :: y :: ys

/-- Stable sort by `match_score` descending, modelling line 223
(`matching_loads.sort(key=lambda x: x["match_score"], reverse=True)`; CPython
list sort is stable, and a stable descending sort is uniquely determined, so
this insertion sort computes the same list). -/
def sortDesc : List MatchResult → List MatchResult
  | [] => []
  | x :: xs => insertDesc x (sortDesc xs)

/-- `LoadMatchingService.search_loads` (lines 149-224): score each load in
input order, keep the matches, sort stably by score descending, return the
first five. -/
def search_loads (loads : List Load) (c : Criteria) : List MatchResult :=
  (sortDesc (loads.filterMap (scoreLoad c))).take 5

/-- The three concession strategies (lines 231-235). -/
inductive Strategy where
  | aggressive
  | balanced
  | accommodating
  deriving DecidableEq, Repr

/-- `self.max_negotiations = 3` (line 230). -/
def maxNegotiations : ℤ := 3

/-- Line 328: `carrier_history and carrier_history.get("reliability_score", 0) > 85`.
The carrier history is modelled as an optional reliability score. -/
def histFlex : Option ℚ → Bool
  | none => false
  | some rel => decide (85 < rel)

/-- `NegotiationEngine._get_strategy` (lines 326-335). -/
def getStrategy (round_num : ℤ) (carrier_history : Option ℚ) : Strategy :=
  if histFlex carrier_history then Strategy.accommodating
  else if round_num = 1 then Strategy.balanced
  else if round_num = 2 then Strategy.aggressive
  else Strategy.accommodating

/-- The concession fraction per strategy (lines 348-356). -/
def concessionFraction : Strategy → ℚ
  | Strategy.aggressive => 1/5
  | Strategy.balanced => 2/5
  | Strategy.accommodating => 3/5

/-- The counter value computed by `_calculate_counter_offer` (lines 337-362)
before the final `round(counter_rate, 2)`. -/
def counterExact (load_rate carrier_offer : ℚ) (strat : Strategy) (round_num : ℤ) : ℚ :=
  let gap := load_rate - carrier_offer
  let concession := gap * concessionFraction strat
  let concession2 := if round_num = maxNegotiations then concession * (3/2) else concession
  load_rate - concession2

/-- `NegotiationEngine._calculate_counter_offer` (lines 337-363). -/
def calcCounter (load_rate carrier_offer : ℚ) (strat : Strategy) (round_num : ℤ) : ℚ :=
  round2 (counterExact load_rate carrier_offer strat round_num)

/-- The response dictionaries returned by `evaluate_offer` (lines 263-324):
the keys that appear in some branches only are optional with default `none`.
The `message` strings are presentation text and are not modelled. -/
structure Outcome where
  decision : String
  final_rate : Option ℚ := none
  counter_rate : Option ℚ := none
  negotiation_complete : Bool
  negotiation_round : Option ℤ := none
  strategy_used : Option Strategy := none
  reason : Option String := none
  deriving DecidableEq, Repr

/-- `NegotiationEngine.evaluate_offer` (lines 237-324).  Python float
arithmetic is modelled by exact rational arithmetic; the thresholds `0.03`,
`0.10`, `0.20` become `3/100`, `10/100`, `20/100`. -/
def evaluate_offer (load_rate carrier_offer : ℚ) (negotiation_round : ℤ)
    (carrier_history : Option ℚ) : Outcome :=
  let rate_difference := |carrier_offer - load_rate| / load_rate
  let offer_ratio := carrier_offer / load_rate
  let strategy := getStrategy negotiation_round carrier_history
  if rate_difference ≤ 3/100 then
    { decision := "accept"
      final_rate := some carrier_offer
      negotiation_complete := true
      reason := some ("Offer within acceptable range") }
  else if rate_difference ≤ 10/100 then
    { decision := "counter_offer"
      counter_rate := some (calcCounter load_rate carrier_offer strategy negotiation_round)
      negotiation_complete := false
      negotiation_round := some (negotiation_round + 1)
      strategy_used := some strategy }
  else if rate_difference ≤ 20/100 ∧ negotiation_round < maxNegotiations then
    if 1 < offer_ratio then
      { decision := "accept"
        final_rate := some load_rate
        negotiation_complete := true
        reason := some ("Carrier offered above asking price") }
    else
      { decision := "counter_offer"
        counter_rate := some (calcCounter load_rate carrier_offer strategy negotiation_round)
        negotiation_complete := false
        negotiation_round := some (negotiation_round + 1)
        strategy_used := some strategy }
  else
    if maxNegotiations ≤ negotiation_round then
      { decision := "transfer"
        negotiation_complete := true
        reason := some ("Maximum negotiation rounds reached") }
    else
      { decision := "decline"
        negotiation_complete := true
        reason := some ("Offer too far from acceptable range") }

/-- Sample criteria: dry-van style equipment, origin preference given in lower
case (the matcher upper-cases it before the substring test). -/
def c4crit : Criteria :=
  { equipment_type := some ("van".toList), origin_state := some ("tx".toList) }

/-- Sample load whose origin stores the state in lower case. -/
def c4loadLower : Load :=
  { origin := "dallas, tx".toList
    destination := []
    equipment_type := "van".toList
    loadboard_rate := 1000
    miles := 500 }

/-- The same load with the origin stored in upper case. -/
def c4loadUpper : Load := { c4loadLower with origin := "DALLAS, TX".toList }

/-- Sample criteria with equipment, origin and destination preferences. -/
def c4wCrit : Criteria :=
  { equipment_type := some ("van".toList)
    origin_state := some ("TX".toList)
    destination_state := some ("FL".toList) }

/-- Sample load matching `c4wCrit` on equipment, origin and destination. -/
def c4wLoad : Load :=
  { origin := "DALLAS, TX".toList
    destination := "MIAMI, FL".toList
    equipment_type := "van".toList
    loadboard_rate := 1000
    miles := 500 }

/-- The match result produced for `c4wLoad` under `c4wCrit`. -/
def c4wRes : MatchResult :=
  { load := c4wLoad
    match_score := 80
    match_reasons := [Reason.equipMatch ("van".toList),
      Reason.originPref ("DALLAS, TX".toList), Reason.destPref ("MIAMI, FL".toList)]
    estimated_revenue := 1000
    revenue_per_mile := 2 }

/-- The match result for `c4wLoad` when the origin preference is dropped. -/
def c4wResNoOrigin : MatchResult :=
  { c4wRes with
    match_score := 60
    match_reasons := [Reason.equipMatch ("van".toList), Reason.destPref ("MIAMI, FL".toList)] }

/-- The match result for `c4wLoad` when the destination preference is dropped. -/
def c4wResNoDest : MatchResult :=
  { c4wRes with
    match_score := 60
    match_reasons := [Reason.equipMatch ("van".toList), Reason.originPref ("DALLAS, TX".toList)] }

/-- Sample criteria asking only for van equipment. -/
def c5crit : Criteria := { equipment_type := some ("van".toList) }

/-- Sample load with positive distance. -/
def c5load : Load :=
  { origin := "A".toList
    destination := "B".toList
    equipment_type := "van".toList
    loadboard_rate := 1000
    miles := 2 }

/-- The match result produced for `c5load` under `c5crit`. -/
def c5res : MatchResult :=
  { load := c5load
    match_score := 40
    match_reasons := [Reason.equipMatch ("van".toList)]
    estimated_revenue := 1000
    revenue_per_mile := 500 }

/-- Sample load with distance zero. -/
def c5zload : Load :=
  { origin := "A".toList
    destination := "B".toList
    equipment_type := "van".toList
    loadboard_rate := 2000
    miles := 0 }

/-- Sample criteria demanding reefer equipment. -/
def c6crit : Criteria := { equipment_type := some ("reefer".toList) }

/-- Sample load whose equipment shares no substring with `c6crit`. -/
def c6load : Load :=
  { origin := "A".toList
    destination := "B".toList
    equipment_type := "flatbed".toList
    loadboard_rate := 100
    miles := 10 }

/-- Sample criteria with no equipment criterion at all. -/
def c10crit : Criteria :=
  { origin_state := some ("TX".toList), destination_state := some ("CA".toList) }

/-- Sample load reaching the 40-point floor without any equipment points. -/
def c10load : Load :=
  { origin := "DALLAS, TX".toList
    destination := "LOS ANGELES, CA".toList
    equipment_type := "flatbed".toList
    loadboard_rate := 1500
    miles := 1200 }

/-- C9: `evaluate(2000, 1850, 1, reliability=90)` counters using the
accommodating strategy: the relative gap is 3/40 = 0.075, the gap is 150, the
concession is 150 times 3/5 = 90 with no final-round multiplier at round 1,
and the reported counter rate is exactly 1910. -/
theorem scenario_reliability90_counter_1910 :
    evaluate_offer 2000 1850 1 (some 90)
      = { decision := "counter_offer"
          counter_rate := some 1910
          negotiation_complete := false
          negotiation_round := some 2
          strategy_used := some Strategy.accommodating }
    ∧ getStrategy 1 (some 90) = Strategy.accommodating
    ∧ (2000 : ℚ) - 1850 = 150
    ∧ counterExact 2000 1850 Strategy.accommodating 1 = 2000 - 150 * (3/5)
    ∧ counterExact 2000 1850 Strategy.accommodating 1 = 1910
    ∧ |(1850 : ℚ) - 2000| / 2000 = 3/40 := by
  refine ⟨?_, ?_, by norm_num, ?_, ?_, by norm_num⟩
  · norm_num [evaluate_offer, calcCounter, counterExact, getStrategy, histFlex,
      concessionFraction, round2, maxNegotiations]
  · norm_num [getStrategy, histFlex]
  · norm_num [counterExact, concessionFraction, maxNegotiations]
  · norm_num [counterExact, concessionFraction, maxNegotiations]

/-- C1 counterexample: postedRate 2000 and carrierOffer 1850 give relative gap
3/40 > 0.03, yet at round 3 (the maximum) the engine returns a Countered
outcome, not Transfer. -/
theorem counter_at_cap_cex :
    (0 : ℚ) < 2000
    ∧ 3/100 < |(1850 : ℚ) - 2000| / 2000
    ∧ (3 : ℤ) ≥ 3
    ∧ (evaluate_offer 2000 1850 3 none).decision = "counter_offer"
    ∧ (evaluate_offer 2000 1850 3 none).decision ≠ "transfer" := by
  refine ⟨by norm_num, by norm_num, by norm_num, ?_, ?_⟩ <;>
    norm_num [evaluate_offer, calcCounter, counterExact, getStrategy, histFlex,
      concessionFraction, round2, maxNegotiations] <;> decide

/-- C2 counterexample: with round 5 > MAX_ROUNDS but a carrier offer equal to
the posted rate, the engine accepts instead of transferring. -/
theorem accept_past_cap_cex :
    (3 : ℤ) < 5
    ∧ (evaluate_offer 2000 2000 5 none).decision = "accept"
    ∧ (evaluate_offer 2000 2000 5 none).decision ≠ "transfer" := by
  refine ⟨by norm_num, ?_, ?_⟩ <;>
    norm_num [evaluate_offer, maxNegotiations] <;> decide

/-- C3 counterexample: at postedRate 1, carrierOffer 24/25 = 0.96 and round 3,
the engine counters and the rounded counter rate equals the carrier offer
itself, so the reported value is not strictly between the two figures. -/
theorem counter_touches_offer_cex :
    (evaluate_offer 1 (24/25) 3 none).decision = "counter_offer"
    ∧ (evaluate_offer 1 (24/25) 3 none).counter_rate = some (24/25)
    ∧ ¬(min (24/25 : ℚ) 1 < 24/25 ∧ (24/25 : ℚ) < max (24/25 : ℚ) 1) := by
  refine ⟨?_, ?_, by norm_num⟩ <;>
    norm_num [evaluate_offer, calcCounter, counterExact, getStrategy, histFlex,
      concessionFraction, round2, maxNegotiations, abs_of_nonneg] <;> decide

/-- C4 counterexample: the origin token is matched case-sensitively against
the stored origin string.  The load storing `dallas, tx` contains the token
`tx` case-insensitively, yet earns only the 40 equipment points; the identical
load storing `DALLAS, TX` earns 60. -/
theorem origin_bonus_case_cex :
    containsSub (lowerStr c4loadLower.origin) (lowerStr ("tx".toList)) = true
    ∧ (scoreLoad c4crit c4loadLower).map (fun r => r.match_score) = some 40
    ∧ (scoreLoad c4crit c4loadUpper).map (fun r => r.match_score) = some 60 := by
  refine ⟨by decide, ?_, ?_⟩ <;>
    · norm_num [scoreLoad, scoreVal, reasonsVal, equipPts, originPts, destPts,
        ratePts, milesPts, nonEquipScore, truthyS, truthyQ, equipOverlapB,
        originHit, destHit, rateHit, milesHit, lowerStr, upperStr, containsSub,
        leadsWith, lowerChar, upperChar, round2, c4crit, c4loadLower, c4loadUpper]
      decide

/-- Characterisation of a successful match: the enhanced load dictionary that
lines 213-219 build. -/
theorem scoreLoad_eq_some {c : Criteria} {l : Load} {r : MatchResult}
    (h : scoreLoad c l = some r) :
    r = { load := l
          match_score := scoreVal c l
          match_reasons := reasonsVal c l
          estimated_revenue := l.loadboard_rate
          revenue_per_mile :=
            if l.miles ≠ 0 then round2 (l.loadboard_rate / max l.miles 1) else 0 } := by
  unfold scoreLoad at h
  split at h
  · exact absurd h (by simp)
  · split at h
    · exact (Option.some.inj h).symm
    · exact absurd h (by simp)

/-- Membership is preserved by one stable-insertion step. -/
theorem mem_insertDesc {x a : MatchResult} {l : List MatchResult} :
    a ∈ insertDesc x l ↔ a = x ∨ a ∈ l := by
  induction l with
  | nil => simp [insertDesc]
  | cons y ys ih =>
    unfold insertDesc
    split
    · simp only [List.mem_cons, ih]
      tauto
    · simp only [List.mem_cons]

/-- The stable sort is a permutation at the level of membership. -/
theorem mem_sortDesc {a : MatchResult} {l : List MatchResult} :
    a ∈ sortDesc l ↔ a ∈ l := by
  induction l with
  | nil => simp [sortDesc]
  | cons y ys ih => simp [sortDesc, mem_insertDesc, ih]

/-- Inserting into a descending list keeps it descending. -/
theorem pairwise_insertDesc {x : MatchResult} {l : List MatchResult}
    (h : l.Pairwise (fun a b => b.match_score ≤ a.match_score)) :
    (insertDesc x l).Pairwise (fun a b => b.match_score ≤ a.match_score) := by
  induction l with
  | nil => simp [insertDesc]
  | cons y ys ih =>
    rw [List.pairwise_cons] at h
    obtain ⟨hy, hys⟩ := h
    unfold insertDesc
    split
    · rename_i hlt
      refine List.Pairwise.cons ?_ (ih hys)
      intro b hb
      rcases mem_insertDesc.mp hb with rfl | hb
      · exact le_of_lt hlt
      · exact hy b hb
    · rename_i hge
      push_neg at hge
      refine List.Pairwise.cons ?_ (List.Pairwise.cons hy hys)
      intro b hb
      rcases List.mem_cons.mp hb with rfl | hb
      · exact hge
      · exact le_trans (hy b hb) hge

/-- The stable sort produces a descending list. -/
theorem pairwise_sortDesc (l : List MatchResult) :
    (sortDesc l).Pairwise (fun a b => b.match_score ≤ a.match_score) := by
  induction l with
  | nil => simp [sortDesc]
  | cons y ys ih => exact pairwise_insertDesc ih

/-- Stability of one insertion step: restricted to any one score value, the
insertion either prepends the new element or changes nothing. -/
theorem filter_insertDesc (v : ℕ) (x : MatchResult) (l : List MatchResult) :
    (insertDesc x l).filter (fun r => r.match_score == v)
      = if x.match_score = v
        then x :: l.filter (fun r => r.match_score == v)
        else l.filter (fun r => r.match_score == v) := by
  induction l with
  | nil =>
    by_cases hxv : x.match_score = v <;> simp [insertDesc, List.filter_cons, hxv]
  | cons y ys ih =>
    unfold insertDesc
    split
    · rename_i hlt
      by_cases hxv : x.match_score = v
      · have hyv : ¬ y.match_score = v := by omega
        simp [List.filter_cons, hxv, hyv, ih]
      · simp [List.filter_cons, hxv, ih]
    · by_cases hxv : x.match_score = v <;> simp [List.filter_cons, hxv]

/-- Stability of the sort: restricted to any one score value, sorting is the
identity, so equal-score entries keep their relative input order. -/
theorem filter_sortDesc (v : ℕ) (l : List MatchResult) :
    (sortDesc l).filter (fun r => r.match_score == v)
      = l.filter (fun r => r.match_score == v) := by
  induction l with
  | nil => rfl
  | cons y ys ih =>
    simp only [sortDesc]
    rw [filter_insertDesc]
    by_cases hyv : y.match_score = v <;> simp [List.filter_cons, hyv, ih]

/-- The loads underlying the matched list form a sublist of the input list. -/
theorem map_load_filterMap_sublist (c : Criteria) (loads : List Load) :
    ((loads.filterMap (scoreLoad c)).map MatchResult.load).Sublist loads := by
  induction loads with
  | nil => simp
  | cons l ls ih =>
    rw [List.filterMap_cons]
    cases hsl : scoreLoad c l with
    | none => exact ih.cons l
    | some r =>
      rw [List.map_cons]
      have hl : r.load = l := by rw [scoreLoad_eq_some hsl]
      rw [hl]
      exact ih.cons₂ l

/-- Every search result arises from scoring some input load. -/
theorem mem_search_loads {loads : List Load} {c : Criteria} {r : MatchResult}
    (h : r ∈ search_loads loads c) : ∃ l, l ∈ loads ∧ scoreLoad c l = some r := by
  unfold search_loads at h
  have h1 : r ∈ sortDesc (loads.filterMap (scoreLoad c)) := List.take_subset _ _ h
  have h2 : r ∈ loads.filterMap (scoreLoad c) := mem_sortDesc.mp h1
  simpa using List.mem_filterMap.mp h2

/-- C5 counterexample: a load with distance 0 is returned with
revenue-per-distance 0, not the posted rate rounded to two decimals (2000). -/
theorem zero_distance_revenue_cex :
    (search_loads [c5zload] c5crit).map (fun r => r.revenue_per_mile) = [0]
    ∧ round2 (c5zload.loadboard_rate / max c5zload.miles 1) = 2000
    ∧ (0 : ℚ) ≠ 2000 := by
  refine ⟨?_, ?_, by norm_num⟩ <;>
    · norm_num [search_loads, scoreLoad, sortDesc, insertDesc, scoreVal, reasonsVal,
        equipPts, originPts, destPts, ratePts, milesPts, nonEquipScore, truthyS,
        truthyQ, equipOverlapB, originHit, destHit, rateHit, milesHit, lowerStr,
        upperStr, containsSub, leadsWith, lowerChar, upperChar, round2, c5crit, c5zload]

/-- Dropping the origin preference removes exactly the origin points. -/
theorem scoreVal_split_origin (c : Criteria) (l : Load) :
    scoreVal c l = scoreVal { c with origin_state := none } l + originPts c l := by
  have e1 : equipPts { c with origin_state := none } l = equipPts c l := rfl
  have e2 : destPts { c with origin_state := none } l = destPts c l := rfl
  have e3 : ratePts { c with origin_state := none } l = ratePts c l := rfl
  have e4 : milesPts { c with origin_state := none } l = milesPts c l := rfl
  have e0 : originPts { c with origin_state := none } l = 0 := rfl
  unfold scoreVal nonEquipScore
  rw [e1, e2, e3, e4, e0]
  omega

/-- Dropping the destination preference removes exactly the destination
points. -/
theorem scoreVal_split_dest (c : Criteria) (l : Load) :
    scoreVal c l = scoreVal { c with destination_state := none } l + destPts c l := by
  have e1 : equipPts { c with destination_state := none } l = equipPts c l := rfl
  have e2 : originPts { c with destination_state := none } l = originPts c l := rfl
  have e3 : ratePts { c with destination_state := none } l = ratePts c l := rfl
  have e4 : milesPts { c with destination_state := none } l = milesPts c l := rfl
  have e0 : destPts { c with destination_state := none } l = 0 := rfl
  unfold scoreVal nonEquipScore
  rw [e1, e2, e3, e4, e0]
  omega

/-- C4 (amended): with non-empty origin and destination preferences, the
20-point origin (resp. destination) bonus is awarded exactly when the stored
origin (resp. destination) string contains the upper-cased requested token as
a case-sensitive substring: the score equals the score computed without that
preference, plus 20 when the containment holds and plus 0 otherwise.  The
bonus is therefore insensitive to the case of the criteria token but does
depend on the case in which the load stores its string. -/
theorem origin_dest_bonus_uppercase_token (c : Criteria) (l : Load)
    (tOrig tDest : Str)
    (ho : c.origin_state = some tOrig) (hd : c.destination_state = some tDest)
    (hto : tOrig ≠ []) (htd : tDest ≠ [])
    (r ro rd : MatchResult)
    (h : scoreLoad c l = some r)
    (h1 : scoreLoad { c with origin_state := none } l = some ro)
    (h2 : scoreLoad { c with destination_state := none } l = some rd) :
    r.match_score
      = ro.match_score + (if containsSub l.origin (upperStr tOrig) then 20 else 0)
    ∧ r.match_score
      = rd.match_score + (if containsSub l.destination (upperStr tDest) then 20 else 0) := by
  have hOrig : originPts c l = if containsSub l.origin (upperStr tOrig) then 20 else 0 := by
    cases tOrig with
    | nil => exact absurd rfl hto
    | cons a as => simp [originPts, originHit, truthyS, ho]
  have hDest : destPts c l = if containsSub l.destination (upperStr tDest) then 20 else 0 := by
    cases tDest with
    | nil => exact absurd rfl htd
    | cons a as => simp [destPts, destHit, truthyS, hd]
  constructor
  · rw [scoreLoad_eq_some h, scoreLoad_eq_some h1]
    show scoreVal c l = scoreVal { c with origin_state := none } l + _
    rw [scoreVal_split_origin c l, hOrig]
  · rw [scoreLoad_eq_some h, scoreLoad_eq_some h2]
    show scoreVal c l = scoreVal { c with destination_state := none } l + _
    rw [scoreVal_split_dest c l, hDest]

/-- Witness for `origin_dest_bonus_uppercase_token`: a concrete criteria/load
pair where both containments hold, so both bonuses are awarded (80 against 60
and 60). -/
theorem origin_dest_bonus_uppercase_token_witness :
    c4wCrit.origin_state = some ("TX".toList)
    ∧ c4wCrit.destination_state = some ("FL".toList)
    ∧ ("TX".toList : Str) ≠ []
    ∧ ("FL".toList : Str) ≠ []
    ∧ scoreLoad c4wCrit c4wLoad = some c4wRes
    ∧ scoreLoad { c4wCrit with origin_state := none } c4wLoad = some c4wResNoOrigin
    ∧ scoreLoad { c4wCrit with destination_state := none } c4wLoad = some c4wResNoDest
    ∧ c4wRes.match_score
        = c4wResNoOrigin.match_score
          + (if containsSub c4wLoad.origin (upperStr ("TX".toList)) then 20 else 0)
    ∧ c4wRes.match_score
        = c4wResNoDest.match_score
          + (if containsSub c4wLoad.destination (upperStr ("FL".toList)) then 20 else 0) := by
  have hrpm : (if c4wLoad.miles ≠ 0
      then round2 (c4wLoad.loadboard_rate / max c4wLoad.miles 1) else 0) = (2 : ℚ) := by
    norm_num [c4wLoad, round2, max_def]
  have e1 : scoreLoad c4wCrit c4wLoad = some c4wRes := by
    unfold scoreLoad
    rw [hrpm]
    decide
  have e2 : scoreLoad { c4wCrit with origin_state := none } c4wLoad = some c4wResNoOrigin := by
    unfold scoreLoad
    rw [hrpm]
    decide
  have e3 : scoreLoad { c4wCrit with destination_state := none } c4wLoad = some c4wResNoDest := by
    unfold scoreLoad
    rw [hrpm]
    decide
  obtain ⟨g1, g2⟩ := origin_dest_bonus_uppercase_token c4wCrit c4wLoad
    ("TX".toList) ("FL".toList) rfl rfl (by decide) (by decide)
    c4wRes c4wResNoOrigin c4wResNoDest e1 e2 e3
  exact ⟨rfl, rfl, by decide, by decide, e1, e2, e3, g1, g2⟩

/-- C5 (amended): every result returned by the matcher carries
revenue-per-distance `round2 (rate / max(distance, 1))` when its distance is
nonzero, and `0` when the distance is zero (the `if load_miles else 0` guard
at line 218, not the rounded posted rate). -/
theorem revenue_per_mile_formula (loads : List Load) (c : Criteria) :
    ∀ r ∈ search_loads loads c,
      r.revenue_per_mile
        = if r.load.miles ≠ 0
          then round2 (r.load.loadboard_rate / max r.load.miles 1) else 0 := by
  intro r hr
  obtain ⟨l, _, hsl⟩ := mem_search_loads hr
  rw [scoreLoad_eq_some hsl]

/-- Witness for `revenue_per_mile_formula` at a concrete search. -/
theorem revenue_per_mile_formula_witness :
    c5res ∈ search_loads [c5load] c5crit
    ∧ c5res.revenue_per_mile
        = if c5res.load.miles ≠ 0
          then round2 (c5res.load.loadboard_rate / max c5res.load.miles 1) else 0 := by
  have hm : c5res ∈ search_loads [c5load] c5crit := by
    have e : scoreLoad c5crit c5load = some c5res := by
      have hrpm : (if c5load.miles ≠ 0
          then round2 (c5load.loadboard_rate / max c5load.miles 1) else 0) = (500 : ℚ) := by
        norm_num [c5load, round2, max_def]
      unfold scoreLoad
      rw [hrpm]
      decide
    have hf : List.filterMap (scoreLoad c5crit) [c5load] = [c5res] := by
      rw [List.filterMap_cons, e]
      rfl
    have hs : search_loads [c5load] c5crit = [c5res] := by
      unfold search_loads
      rw [hf]
      rfl
    rw [hs]
    exact List.mem_singleton.mpr rfl
  exact ⟨hm, revenue_per_mile_formula [c5load] c5crit c5res hm⟩

/-- C6: with a truthy equipment criterion, a load whose equipment shares no
substring with the criterion (case-insensitively, in either direction) never
appears among the search results, whatever its other attributes score. -/
theorem equipment_gate_excludes (loads : List Load) (c : Criteria) (l : Load)
    (h1 : truthyS c.equipment_type = true) (h2 : equipOverlapB c l = false) :
    ∀ r ∈ search_loads loads c, r.load ≠ l := by
  intro r hr heq
  obtain ⟨l', _, hsl⟩ := mem_search_loads hr
  have hl : r.load = l' := by rw [scoreLoad_eq_some hsl]
  have hll : l' = l := by rw [← hl, heq]
  rw [hll] at hsl
  unfold scoreLoad at hsl
  rw [h1, h2] at hsl
  simp at hsl

/-- Witness for `equipment_gate_excludes`: reefer criteria against a flatbed
load. -/
theorem equipment_gate_excludes_witness :
    truthyS c6crit.equipment_type = true
    ∧ equipOverlapB c6crit c6load = false
    ∧ ∀ r ∈ search_loads [c6load] c6crit, r.load ≠ c6load :=
  ⟨by decide, by decide,
    equipment_gate_excludes [c6load] c6crit c6load (by decide) (by decide)⟩

/-- C7: the search output is sorted by match score descending, has at most
five entries, and entries sharing any one score value keep their relative
input order: their underlying loads form a sublist of the input list. -/
theorem search_sorted_stable_top5 (loads : List Load) (c : Criteria) :
    (search_loads loads c).Pairwise (fun a b => b.match_score ≤ a.match_score)
    ∧ (search_loads loads c).length ≤ 5
    ∧ ∀ v : ℕ,
        (((search_loads loads c).filter (fun r => r.match_score == v)).map
          MatchResult.load).Sublist loads := by
  refine ⟨?_, ?_, ?_⟩
  · exact List.Pairwise.sublist (List.take_sublist _ _) (pairwise_sortDesc _)
  · exact List.length_take_le _ _
  · intro v
    have hsub1 : (search_loads loads c).filter (fun r => r.match_score == v)
        |>.Sublist ((sortDesc (loads.filterMap (scoreLoad c))).filter
            (fun r => r.match_score == v)) :=
      (List.take_sublist _ _).filter _
    rw [filter_sortDesc] at hsub1
    have hsub2 := hsub1.trans (List.filter_sublist _)
    exact (hsub2.map MatchResult.load).trans (map_load_filterMap_sublist c loads)

/-- C10: with the equipment criterion absent or empty, no equipment gate
applies: a load is matched exactly when the four remaining components reach
the 40-point floor, it earns no equipment points, and no equipment reason is
recorded. -/
theorem no_equipment_gate_when_absent (c : Criteria) (l : Load)
    (he : truthyS c.equipment_type = false) :
    ((scoreLoad c l).isSome ↔ 40 ≤ nonEquipScore c l)
    ∧ ∀ r, scoreLoad c l = some r →
        r.match_score = nonEquipScore c l
        ∧ ∀ s, Reason.equipMatch s ∉ r.match_reasons := by
  have hgate : (truthyS c.equipment_type && !equipOverlapB c l) = false := by
    rw [he]
    rfl
  have hscore : scoreVal c l = nonEquipScore c l := by
    unfold scoreVal equipPts
    rw [he]
    simp
  constructor
  · unfold scoreLoad
    rw [hgate, hscore]
    split <;> simp_all
  · intro r hrr
    rw [scoreLoad_eq_some hrr]
    refine ⟨hscore, ?_⟩
    intro s
    unfold reasonsVal
    rw [he]
    split_ifs <;> simp_all

/-- Witness for `no_equipment_gate_when_absent`: criteria with no equipment
criterion and a load with non-overlapping equipment that reaches the floor on
origin and destination points alone. -/
theorem no_equipment_gate_when_absent_witness :
    truthyS c10crit.equipment_type = false
    ∧ ((scoreLoad c10crit c10load).isSome ↔ 40 ≤ nonEquipScore c10crit c10load)
    ∧ ∀ r, scoreLoad c10crit c10load = some r →
        r.match_score = nonEquipScore c10crit c10load
        ∧ ∀ s, Reason.equipMatch s ∉ r.match_reasons :=
  ⟨by decide,
    (no_equipment_gate_when_absent c10crit c10load (by decide)).1,
    (no_equipment_gate_when_absent c10crit c10load (by decide)).2⟩

/-- Rounding to two decimals moves a value by at most 1/200. -/
theorem round2_close (q : ℚ) : |round2 q - q| ≤ 1/200 := by
  have h1 : ((⌊q * 100⌋ : ℤ) : ℚ) ≤ q * 100 := Int.floor_le _
  have h2 : q * 100 < (⌊q * 100⌋ : ℤ) + 1 := Int.lt_floor_add_one _
  simp only [round2]
  split_ifs with ha hb hc <;> (rw [abs_le]; push_cast; constructor <;> linarith)

/-- The effective concession fraction is strictly between 0 and 1 for every
strategy and round, so the pre-rounding counter value lies strictly between
the carrier offer and the posted rate whenever they differ. -/
theorem counterExact_between (load_rate carrier_offer : ℚ) (st : Strategy) (n : ℤ)
    (hne : carrier_offer ≠ load_rate) :
    min carrier_offer load_rate < counterExact load_rate carrier_offer st n
    ∧ counterExact load_rate carrier_offer st n < max carrier_offer load_rate := by
  set F : ℚ := concessionFraction st * (if n = maxNegotiations then (3/2 : ℚ) else 1) with hF
  have hF0 : 0 < F := by
    rw [hF]
    cases st <;> simp only [concessionFraction] <;> split <;> norm_num
  have hF1 : F < 1 := by
    rw [hF]
    cases st <;> simp only [concessionFraction] <;> split <;> norm_num
  have hCE : counterExact load_rate carrier_offer st n
      = load_rate - (load_rate - carrier_offer) * F := by
    rw [hF]
    simp only [counterExact]
    by_cases hn3 : n = maxNegotiations
    · rw [if_pos hn3, if_pos hn3]
      ring
    · rw [if_neg hn3, if_neg hn3]
      ring
  rcases lt_or_gt_of_ne hne with hlt | hgt
  · rw [min_eq_left hlt.le, max_eq_right hlt.le, hCE]
    have hd : (0 : ℚ) < load_rate - carrier_offer := by linarith
    constructor
    · have := mul_lt_mul_of_pos_left hF1 hd
      linarith
    · have := mul_pos hd hF0
      linarith
  · rw [min_eq_right hgt.le, max_eq_left hgt.le, hCE]
    have hd : load_rate - carrier_offer < 0 := by linarith
    constructor
    · have := mul_neg_of_neg_of_pos hd hF0
      linarith
    · have := mul_lt_mul_of_neg_left hF1 hd
      linarith

/-- C1 (amended): when the relative gap exceeds 10 percent (not merely 3
percent), every round at or beyond MAX_ROUNDS = 3 yields Transfer.  For gaps
in (0.03, 0.10] the engine still counters even at the cap, as
`counter_at_cap_cex` shows. -/
theorem transfer_at_cap_large_gap (load_rate carrier_offer : ℚ) (n : ℤ)
    (hist : Option ℚ) (hr : 0 < load_rate)
    (hgap : 1/10 < |carrier_offer - load_rate| / load_rate) (hn : 3 ≤ n) :
    (evaluate_offer load_rate carrier_offer n hist).decision = "transfer" := by
  simp only [evaluate_offer, maxNegotiations]
  rw [if_neg (by linarith), if_neg (by linarith),
    if_neg (fun hc => absurd hc.2 (by omega)), if_pos hn]

/-- C2 (amended): a round strictly beyond MAX_ROUNDS = 3 is treated exactly
like the cap: the engine raises nothing, and returns Transfer whenever the
relative gap exceeds 10 percent.  (Offers within 3 percent still accept and
offers within 10 percent still counter even past the cap, as
`accept_past_cap_cex` shows.) -/
theorem transfer_past_cap_large_gap (load_rate carrier_offer : ℚ) (n : ℤ)
    (hist : Option ℚ) (hr : 0 < load_rate)
    (hgap : 1/10 < |carrier_offer - load_rate| / load_rate) (hn : 3 < n) :
    (evaluate_offer load_rate carrier_offer n hist).decision = "transfer" := by
  simp only [evaluate_offer, maxNegotiations]
  rw [if_neg (by linarith), if_neg (by linarith),
    if_neg (fun hc => absurd hc.2 (by omega)), if_pos (by omega)]

/-- Witness for `transfer_at_cap_large_gap` at postedRate 2000, offer 1200,
round 3. -/
theorem transfer_at_cap_large_gap_witness :
    (0 : ℚ) < 2000
    ∧ 1/10 < |(1200 : ℚ) - 2000| / 2000
    ∧ (3 : ℤ) ≤ 3
    ∧ (evaluate_offer 2000 1200 3 none).decision = "transfer" :=
  ⟨by norm_num, by norm_num, le_refl 3,
    transfer_at_cap_large_gap 2000 1200 3 none (by norm_num) (by norm_num) (le_refl 3)⟩

/-- Witness for `transfer_past_cap_large_gap` at postedRate 2000, offer 1200,
round 4. -/
theorem transfer_past_cap_large_gap_witness :
    (0 : ℚ) < 2000
    ∧ 1/10 < |(1200 : ℚ) - 2000| / 2000
    ∧ (3 : ℤ) < 4
    ∧ (evaluate_offer 2000 1200 4 none).decision = "transfer" :=
  ⟨by norm_num, by norm_num, by norm_num,
    transfer_past_cap_large_gap 2000 1200 4 none (by norm_num) (by norm_num) (by norm_num)⟩

/-- C3 (amended): whenever the engine counters, the counter value before the
final rounding to two decimals is strictly between the carrier offer and the
posted rate, and the reported (rounded) counter rate differs from it by at
most 1/200.  The reported value itself can coincide with the carrier offer,
as `counter_touches_offer_cex` shows. -/
theorem counter_strictly_between_before_rounding (load_rate carrier_offer : ℚ)
    (n : ℤ) (hist : Option ℚ) (hr : 0 < load_rate)
    (hc : (evaluate_offer load_rate carrier_offer n hist).decision = "counter_offer") :
    (evaluate_offer load_rate carrier_offer n hist).counter_rate
        = some (round2 (counterExact load_rate carrier_offer (getStrategy n hist) n))
    ∧ min carrier_offer load_rate
        < counterExact load_rate carrier_offer (getStrategy n hist) n
    ∧ counterExact load_rate carrier_offer (getStrategy n hist) n
        < max carrier_offer load_rate
    ∧ |round2 (counterExact load_rate carrier_offer (getStrategy n hist) n)
        - counterExact load_rate carrier_offer (getStrategy n hist) n| ≤ 1/200 := by
  simp only [evaluate_offer] at hc ⊢
  by_cases h1 : |carrier_offer - load_rate| / load_rate ≤ 3/100
  · rw [if_pos h1] at hc
    simp at hc
  have hne : carrier_offer ≠ load_rate := by
    intro he
    apply h1
    rw [he, sub_self, abs_zero, zero_div]
    norm_num
  obtain ⟨hb1, hb2⟩ := counterExact_between load_rate carrier_offer (getStrategy n hist) n hne
  rw [if_neg h1] at hc ⊢
  by_cases h2 : |carrier_offer - load_rate| / load_rate ≤ 10/100
  · rw [if_pos h2]
    exact ⟨rfl, hb1, hb2, round2_close _⟩
  · rw [if_neg h2] at hc ⊢
    by_cases h3 : |carrier_offer - load_rate| / load_rate ≤ 20/100 ∧ n < maxNegotiations
    · rw [if_pos h3] at hc ⊢
      by_cases h4 : 1 < carrier_offer / load_rate
      · rw [if_pos h4] at hc
        simp at hc
      · rw [if_neg h4]
        exact ⟨rfl, hb1, hb2, round2_close _⟩
    · rw [if_neg h3] at hc
      by_cases h5 : maxNegotiations ≤ n
      · rw [if_pos h5] at hc
        simp at hc
      · rw [if_neg h5] at hc
        simp at hc

/-- Witness for `counter_strictly_between_before_rounding` at postedRate 2000,
offer 1850, round 1 (counter value 1940, strictly between). -/
theorem counter_strictly_between_before_rounding_witness :
    (0 : ℚ) < 2000
    ∧ (evaluate_offer 2000 1850 1 none).decision = "counter_offer"
    ∧ ((evaluate_offer 2000 1850 1 none).counter_rate
          = some (round2 (counterExact 2000 1850 (getStrategy 1 none) 1))
      ∧ min (1850 : ℚ) 2000 < counterExact 2000 1850 (getStrategy 1 none) 1
      ∧ counterExact 2000 1850 (getStrategy 1 none) 1 < max (1850 : ℚ) 2000
      ∧ |round2 (counterExact 2000 1850 (getStrategy 1 none) 1)
          - counterExact 2000 1850 (getStrategy 1 none) 1| ≤ 1/200) := by
  have hd : (evaluate_offer 2000 1850 1 none).decision = "counter_offer" := by
    norm_num [evaluate_offer, getStrategy, histFlex, maxNegotiations]
  exact ⟨by norm_num, hd,
    counter_strictly_between_before_rounding 2000 1850 1 none (by norm_num) hd⟩

/-- C8: for every numeric input with positive posted rate, the engine is a
total function whose decision is one of accept, counter_offer, decline or
transfer (its embedding returns a value in every branch; no exception path
exists in the source). -/
theorem evaluate_decisions_closed (load_rate carrier_offer : ℚ) (n : ℤ)
    (hist : Option ℚ) (hr : 0 < load_rate) :
    (evaluate_offer load_rate carrier_offer n hist).decision = "accept"
    ∨ (evaluate_offer load_rate carrier_offer n hist).decision = "counter_offer"
    ∨ (evaluate_offer load_rate carrier_offer n hist).decision = "decline"
    ∨ (evaluate_offer load_rate carrier_offer n hist).decision = "transfer" := by
  simp only [evaluate_offer]
  split
  · exact Or.inl rfl
  · split
    · exact Or.inr (Or.inl rfl)
    · split
      · split
        · exact Or.inl rfl
        · exact Or.inr (Or.inl rfl)
      · split
        · exact Or.inr (Or.inr (Or.inr rfl))
        · exact Or.inr (Or.inr (Or.inl rfl))

/-- Witness for `evaluate_decisions_closed` at a concrete input. -/
theorem evaluate_decisions_closed_witness :
    (0 : ℚ) < 2000
    ∧ ((evaluate_offer 2000 1850 1 none).decision = "accept"
      ∨ (evaluate_offer 2000 1850 1 none).decision = "counter_offer"
      ∨ (evaluate_offer 2000 1850 1 none).decision = "decline"
      ∨ (evaluate_offer 2000 1850 1 none).decision = "transfer") :=
  ⟨by norm_num, evaluate_decisions_closed 2000 1850 1 none (by norm_num)⟩

end FreightBroker
